import Mathlib

/-!
Verification of the hybrid commit-search subsystem of the codebase-time-machine
repository, as implemented in src/python/query_engine.py (with the index-build
and persistence parts from src/python/analyze_repo.py).

The embedding is shallow: every Python string operation the engine relies on
(lower-casing, whitespace splitting, substring containment, non-overlapping
substring counting, replacement, stripping, lexicographic comparison) is given
an executable Lean counterpart over lists of characters with the exact Python
semantics on ASCII data.  Python dictionaries holding commit data are modelled
as structures; the mutable engine object is modelled by explicit state passing.
External collaborators (the sentence-transformer embedding model and the FAISS
vector index) are modelled as opaque function-valued fields: the engine never
inspects them beyond calling them, so their outputs are universally quantified.
Similarity scores, which are floats in the source, are carried as rationals;
no claim performs arithmetic on them.
-/

namespace CodebaseTimeMachine

/-! ## Python string primitives -/

/-- Python is case-lowering restricted to ASCII, the only range exercised by the
engine.  Models the lower() calls in query_engine.py. -/
def pyLower (s : String) : String := ⟨s.data.map Char.toLower⟩

/-- Lexicographic comparison of character lists by code point, the semantics of
Python string less-or-equal. -/
def listLeChar : List Char → List Char → Bool
  | [], _ => true
  | _ :: _, [] => false
  | a :: as, b :: bs =>
    if a.toNat < b.toNat then true
    else if b.toNat < a.toNat then false
    else listLeChar as bs

/-- Python string less-or-equal, used by time_range_search via the chained
comparison start_date <= commit_date <= end_date. -/
def pyStrLe (a b : String) : Bool := listLeChar a.data b.data

/-- A list of characters starts with the given pattern. -/
def startsWithL : List Char → List Char → Bool
  | [], _ => true
  | _ :: _, [] => false
  | a :: as, b :: bs => a == b && startsWithL as bs

/-- Python substring membership, the semantics of the in operator on strings:
the pattern occurs somewhere in s. -/
def containsL (s pat : List Char) : Bool :=
  startsWithL pat s ||
    (match s with
     | [] => false
     | _ :: rest => containsL rest pat)

/-- Worker for Python str.count, structurally recursive on the scanned list.
The counter skip is the number of characters still to pass over because they
belong to the occurrence just counted; a new match is only recognized when
skip is zero, which makes the count non-overlapping and left-to-right, exactly
Python str.count for a non-empty pattern. -/
def countGo (pat : List Char) : List Char → Nat → Nat
  | [], _ => 0
  | c :: rest, 0 =>
    if startsWithL pat (c :: rest) then 1 + countGo pat rest (pat.length - 1)
    else countGo pat rest 0
  | _ :: rest, skip + 1 => countGo pat rest skip

/-- Python str.count: the number of non-overlapping occurrences of pat in s,
scanning left to right.  An empty pattern matches at every gap, giving
length + 1 occurrences, exactly as in Python. -/
def countL (s pat : List Char) : Nat :=
  if pat.isEmpty then s.length + 1
  else countGo pat s 0

/-- Python in on strings, lifted to String. -/
def pyContains (s pat : String) : Bool := containsL s.data pat.data

/-- Python str.count, lifted to String. -/
def pyCount (s pat : String) : Nat := countL s.data pat.data

/-- Worker for Python str.replace, structurally recursive on the scanned list
with the same skip-counter device as countGo: at a match the replacement is
emitted once and the remaining old.length - 1 matched characters are passed
over without being copied. -/
def replaceGo (old new : List Char) : List Char → Nat → List Char
  | [], _ => []
  | c :: rest, 0 =>
    if startsWithL old (c :: rest) then new ++ replaceGo old new rest (old.length - 1)
    else c :: replaceGo old new rest 0
  | _ :: rest, skip + 1 => replaceGo old new rest skip

/-- Python str.replace on character lists: every non-overlapping occurrence of
old, scanned left to right, is replaced by new.  The engine only calls it with
non-empty old patterns (the trigger words author, who, file, modified), so the
empty-pattern case never arises; it is mapped to the identity. -/
def replaceL (s old new : List Char) : List Char :=
  if old.isEmpty then s
  else replaceGo old new s 0

/-- Python str.replace, lifted to String. -/
def pyReplace (s old new : String) : String := ⟨replaceL s.data old.data new.data⟩

/-- The six ASCII characters Python treats as whitespace for split() and
strip(). -/
def pyIsSpace (c : Char) : Bool :=
  c == ' ' || c == '\t' || c == '\n' || c == '\r' || c == '\x0b' || c == '\x0c'

/-- Python str.strip with no argument: remove leading and trailing
whitespace. -/
def pyStrip (s : String) : String :=
  ⟨((s.data.dropWhile pyIsSpace).reverse.dropWhile pyIsSpace).reverse⟩

/-- Worker for Python str.split with no argument: split on runs of whitespace,
discarding empty pieces.  The accumulator holds the current word reversed. -/
def splitWsAux : List Char → List Char → List (List Char)
  | [], acc => if acc.isEmpty then [] else [acc.reverse]
  | c :: rest, acc =>
    if pyIsSpace c then
      if acc.isEmpty then splitWsAux rest []
      else acc.reverse :: splitWsAux rest []
    else splitWsAux rest (c :: acc)

/-- Python str.split with no argument, lifted to String. -/
def pySplitWs (s : String) : List String :=
  (splitWsAux s.data []).map fun cs => ⟨cs⟩

/-- Python " ".join, used to concatenate the changed file names of a commit. -/
def joinSpace : List String → String
  | [] => ""
  | [s] => s
  | s :: rest => s ++ " " ++ joinSpace rest

/-! ## Data model

Commit dictionaries are produced by extract_commits_data in analyze_repo.py;
their keys become structure fields.  The embedding value is either absent/None
or a float vector; both the absent and the None case are modelled by none, and
Python truthiness of a present vector is the emptiness test on the list. -/

/-- One entry of the file_changes list of a commit, as built by
extract_commits_data in analyze_repo.py. -/
structure FileChange where
  filename : String
  old_path : String
  new_path : String
  change_type : String
  added_lines : Int
  deleted_lines : Int
deriving DecidableEq, Repr

/-- One commit dictionary of commits_data, as built by extract_commits_data in
analyze_repo.py.  Similarity vectors are carried as rationals in place of
floats; no claim computes with them. -/
structure Commit where
  hash : String
  author : String
  author_email : String
  date : String
  message : String
  insertions : Int
  deletions : Int
  files_modified : Nat
  file_changes : List FileChange
  embedding : Option (List Rat)
deriving DecidableEq, Repr

/-- One metadata entry of commit_metadata, as built by create_embeddings_index
in analyze_repo.py (lines 325-331). -/
structure CommitMeta where
  hash : String
  author : String
  date : String
  message : String
  files_modified : Nat
deriving DecidableEq, Repr

/-- The analysis dictionary persisted as repo_id_analysis.json.  The structure
and insight sub-dictionaries are opaque payloads for the query engine, which
only copies them into the summary, so they are carried as opaque strings. -/
structure AnalysisData where
  repo_id : String
  repo_url : String
  analysis_timestamp : String
  status : String
  structure_info : String
  insights : String
  commits_data : List Commit

/-- The sentence-transformer model, an external collaborator: the engine only
calls encode on a query string. -/
structure EmbModel where
  encode : String → List Rat

/-- The FAISS index, an external collaborator: the engine only calls search on
a query embedding and a result count, receiving one row of
(similarity, slot index) pairs; FAISS signals absent slots with index -1. -/
structure VecIndex where
  ntotal : Nat
  searchRow : List Rat → Nat → List (Rat × Int)

/-- The mutable attributes of the QueryEngine object in query_engine.py.
analysis_data = none models the initial empty dictionary, which is falsy. -/
structure EngineState where
  embeddings_model : Option EmbModel
  embeddings_index : Option VecIndex
  commit_metadata : List CommitMeta
  analysis_data : Option AnalysisData

/-- The commits_data list of the loaded analysis dictionary; an unloaded engine
has no commits.  Python reads it as self.analysis_data.get(commits_data). -/
def commitsData (st : EngineState) : List Commit :=
  match st.analysis_data with
  | none => []
  | some a => a.commits_data

/-! ## Result shapes

Each search method builds result dictionaries with a fixed key set; one
structure per shape. -/

/-- Result dictionary of semantic_search: a copy of a commit_metadata entry
plus similarity_score and rank. -/
structure SemResult where
  hash : String
  author : String
  date : String
  message : String
  files_modified : Nat
  similarity_score : Rat
  rank : Nat
deriving DecidableEq, Repr

/-- Result dictionary of keyword_search (query_engine.py lines 132-140). -/
structure KwResult where
  hash : String
  author : String
  date : String
  message : String
  files_modified : Nat
  keyword_score : Nat
  file_changes : List FileChange
deriving DecidableEq, Repr

/-- Result dictionary of author_search (query_engine.py lines 167-176). -/
structure AuthorResult where
  hash : String
  author : String
  author_email : String
  date : String
  message : String
  files_modified : Nat
  insertions : Int
  deletions : Int
deriving DecidableEq, Repr

/-- Result dictionary of file_search (query_engine.py lines 207-214). -/
structure FileResult where
  hash : String
  author : String
  date : String
  message : String
  matching_files : List FileChange
  total_files_modified : Nat
deriving DecidableEq, Repr

/-- Result dictionary of time_range_search (query_engine.py lines 238-246). -/
structure TrResult where
  hash : String
  author : String
  date : String
  message : String
  files_modified : Nat
  insertions : Int
  deletions : Int
deriving DecidableEq, Repr

/-! ## Search methods

Python sorted(..., key, reverse=True) is a stable sort; a stable sort is
uniquely determined by the key order and the input order, so it is modelled by
insertion sort with the relation (key of the right argument) <= (key of the
left argument), which places an element before all equal-keyed elements that
were sorted earlier, exactly the stable descending order. -/

/-- semantic_search (query_engine.py lines 82-110).  With no model or no index
it returns the empty list; otherwise each row entry whose slot index is a
valid metadata position yields a copy of that metadata entry with the
similarity score and the 1-based rank attached. -/
def semantic_search (st : EngineState) (query : String) (top_k : Nat := 10) :
    List SemResult :=
  match st.embeddings_model, st.embeddings_index with
  | some m, some idx =>
    let row := idx.searchRow (m.encode query) top_k
    row.enum.filterMap fun p =>
      let i := p.1
      let sim := p.2.1
      let j := p.2.2
      if 0 ≤ j ∧ j.toNat < st.commit_metadata.length then
        match st.commit_metadata[j.toNat]? with
        | some md =>
          some { hash := md.hash, author := md.author, date := md.date,
                 message := md.message, files_modified := md.files_modified,
                 similarity_score := sim, rank := i + 1 }
        | none => none
      else none
  | _, _ => []

/-- The text a commit is scored against in keyword_search: the message and all
changed file names, joined by spaces and lower-cased (query_engine.py lines
123-124). -/
def commitText (c : Commit) : String :=
  pyLower (c.message ++ " " ++ joinSpace (c.file_changes.map fun f => f.filename))

/-- The keyword score of one commit: for each query token occurring in the
commit text, its non-overlapping occurrence count is added (query_engine.py
lines 126-129). -/
def kwScore (keywords : List String) (text : String) : Nat :=
  keywords.foldl (fun score kw => if pyContains text kw then score + pyCount text kw else score) 0

/-- The result dictionary keyword_search builds for a matching commit; the
file_changes payload is truncated to the first three entries. -/
def kwResultOf (c : Commit) (score : Nat) : KwResult :=
  { hash := c.hash, author := c.author, date := c.date, message := c.message,
    files_modified := c.files_modified, keyword_score := score,
    file_changes := c.file_changes.take 3 }

/-- keyword_search (query_engine.py lines 112-151): tokenize the query on
whitespace after lower-casing, score every commit, keep positive scores, sort
by score descending (stable), truncate to top_k. -/
def keyword_search (st : EngineState) (query : String) (top_k : Nat := 10) :
    List KwResult :=
  if (commitsData st).isEmpty then []
  else
    let query_keywords := pySplitWs (pyLower query)
    let results := (commitsData st).filterMap fun c =>
      let score := kwScore query_keywords (commitText c)
      if score > 0 then some (kwResultOf c score) else none
    (List.insertionSort (fun a b : KwResult => b.keyword_score ≤ a.keyword_score) results).take top_k

/-- author_search (query_engine.py lines 153-187): case-insensitive substring
match of the query against author name or author email, sorted by date
descending (stable). -/
def author_search (st : EngineState) (query : String) : List AuthorResult :=
  if (commitsData st).isEmpty then []
  else
    let query_lower := pyLower query
    let results := (commitsData st).filterMap fun c =>
      if pyContains (pyLower c.author) query_lower || pyContains (pyLower c.author_email) query_lower then
        some { hash := c.hash, author := c.author, author_email := c.author_email,
               date := c.date, message := c.message, files_modified := c.files_modified,
               insertions := c.insertions, deletions := c.deletions }
      else none
    List.insertionSort (fun a b : AuthorResult => pyStrLe b.date a.date = true) results

/-- file_search (query_engine.py lines 189-225): a commit qualifies when any
changed file name contains the query as a substring, case-insensitively; the
result carries only the matching file changes, sorted by date descending
(stable). -/
def file_search (st : EngineState) (query : String) : List FileResult :=
  if (commitsData st).isEmpty then []
  else
    let query_lower := pyLower query
    let results := (commitsData st).filterMap fun c =>
      let matching_files := c.file_changes.filter fun f =>
        pyContains (pyLower f.filename) query_lower
      if matching_files.isEmpty then none
      else
        some { hash := c.hash, author := c.author, date := c.date,
               message := c.message, matching_files := matching_files,
               total_files_modified := c.files_modified }
    List.insertionSort (fun a b : FileResult => pyStrLe b.date a.date = true) results

/-- The result dictionary time_range_search builds for a commit in range. -/
def trResultOf (c : Commit) : TrResult :=
  { hash := c.hash, author := c.author, date := c.date, message := c.message,
    files_modified := c.files_modified, insertions := c.insertions,
    deletions := c.deletions }

/-- time_range_search (query_engine.py lines 227-257): keep the commits whose
date satisfies start_date <= date <= end_date under Python string comparison,
sorted by date descending (stable). -/
def time_range_search (st : EngineState) (start_date end_date : String) :
    List TrResult :=
  if (commitsData st).isEmpty then []
  else
    let results := (commitsData st).filterMap fun c =>
      if pyStrLe start_date c.date && pyStrLe c.date end_date then
        some (trResultOf c)
      else none
    List.insertionSort (fun a b : TrResult => pyStrLe b.date a.date = true) results

/-! ## Summary, persistence, index build -/

/-- The summary dictionary of get_repository_summary (query_engine.py lines
259-285); none models the empty dictionary returned when no analysis data is
loaded. -/
structure RepoSummary where
  repo_id : String
  repo_url : String
  analysis_timestamp : String
  status : String
  structure_info : String
  insights : String
  semantic_search_available : Bool
  total_commits_indexed : Nat
  search_types : List String

/-- get_repository_summary (query_engine.py lines 259-285). -/
def get_repository_summary (st : EngineState) : Option RepoSummary :=
  match st.analysis_data with
  | none => none
  | some a =>
    some { repo_id := a.repo_id, repo_url := a.repo_url,
           analysis_timestamp := a.analysis_timestamp, status := a.status,
           structure_info := a.structure_info, insights := a.insights,
           semantic_search_available := st.embeddings_index.isSome,
           total_commits_indexed := st.commit_metadata.length,
           search_types := ["semantic", "keyword", "author", "file", "time_range"] }

/-- The state of one persisted artifact on disk.  The loading code
distinguishes three cases: the file does not exist (os.path.exists is false),
the file exists but reading it raises (json.load, faiss.read_index or
pickle.load fails), and the file exists and reads back a value. -/
inductive Artifact (α : Type) where
  | absent : Artifact α
  | corrupt : Artifact α
  | present : α → Artifact α

/-- The artifact file exists and reads back a value. -/
def Artifact.isPresent {α : Type} : Artifact α → Bool
  | .present _ => true
  | _ => false

/-- The artifact file exists but reading it raises. -/
def Artifact.isCorrupt {α : Type} : Artifact α → Bool
  | .corrupt => true
  | _ => false

/-- The artifact file does not exist. -/
def Artifact.isAbsent {α : Type} : Artifact α → Bool
  | .absent => true
  | _ => false

/-- The persisted artifact set for one repo_id, as written by
save_analysis_results in analyze_repo.py: the analysis JSON, the FAISS index
file and the metadata pickle. -/
structure DiskState where
  analysis_file : Artifact AnalysisData
  index_file : Artifact VecIndex
  metadata_file : Artifact (List CommitMeta)

/-- load_analysis_data (query_engine.py lines 45-80).  A missing analysis
JSON returns failure; an unreadable one raises into the except clause, also
failure.  The FAISS index and the metadata pickle are each loaded only when
their file exists — a missing one merely warns — but when a present one fails
to read, the raise reaches the same except clause and the whole load reports
failure.  Attribute assignments made before a raise stay in place: the
analysis data is already installed when the index read fails, and the index
is already installed when the metadata read fails, exactly as in the Python
method. -/
def load_analysis_data (disk : DiskState) (st : EngineState) :
    EngineState × Bool :=
  match disk.analysis_file with
  | .absent => (st, false)
  | .corrupt => (st, false)
  | .present a =>
    let st1 := { st with analysis_data := some a }
    match disk.index_file with
    | .corrupt => (st1, false)
    | .absent =>
      match disk.metadata_file with
      | .corrupt => (st1, false)
      | .absent => (st1, true)
      | .present md => ({ st1 with commit_metadata := md }, true)
    | .present idx =>
      let st2 := { st1 with embeddings_index := some idx }
      match disk.metadata_file with
      | .corrupt => (st2, false)
      | .absent => (st2, true)
      | .present md => ({ st2 with commit_metadata := md }, true)

/-- The metadata entry create_embeddings_index builds for an embedded
commit. -/
def metaOf (c : Commit) : CommitMeta :=
  { hash := c.hash, author := c.author, date := c.date, message := c.message,
    files_modified := c.files_modified }

/-- The embedded records of a store, in store order: the commits whose
embedding value is present and truthy (a non-empty vector), paired with their
metadata entry (analyze_repo.py lines 319-331). -/
def embeddedRecords (commits_data : List Commit) : List (List Rat × CommitMeta) :=
  commits_data.filterMap fun c =>
    match c.embedding with
    | some e => if e.isEmpty then none else some (e, metaOf c)
    | none => none

/-- create_embeddings_index (analyze_repo.py lines 312-353): collect the
embedded records; with none, skip index creation and return nothing; otherwise
build the FAISS index over the embeddings (external collaborator, passed in as
buildIndex) and pair it with the metadata list. -/
def create_embeddings_index (buildIndex : List (List Rat) → VecIndex)
    (commits_data : List Commit) : Option (VecIndex × List CommitMeta) :=
  let recs := embeddedRecords commits_data
  if recs.isEmpty then none
  else some (buildIndex (recs.map fun r => r.1), recs.map fun r => r.2)

/-! ## Query router -/

/-- One element of the results list of a process_query response; the payload
shape depends on the search mode that produced it. -/
inductive QRes where
  | sem : SemResult → QRes
  | kw : KwResult → QRes
  | author : AuthorResult → QRes
  | file : FileResult → QRes
deriving DecidableEq, Repr

/-- The hash key of a combined-mode result, result.get(hash, empty): every
result shape carries a hash field. -/
def QRes.hashKey : QRes → String
  | .sem r => r.hash
  | .kw r => r.hash
  | .author r => r.hash
  | .file r => r.hash

/-- The author trigger of auto-classification (query_engine.py line 315). -/
def authorTrigger (query_lower : String) : Bool :=
  pyContains query_lower "author" || pyContains query_lower "who"

/-- The file trigger of auto-classification (query_engine.py line 317). -/
def fileTrigger (query_lower : String) : Bool :=
  pyContains query_lower "file" || pyContains query_lower ".py" || pyContains query_lower ".js"

/-- The time trigger of auto-classification (query_engine.py line 319): a
date-relative term or one of the five hard-coded years. -/
def timeTrigger (query_lower : String) : Bool :=
  ["before", "after", "during", "2020", "2021", "2022", "2023", "2024"].any
    fun date_term => pyContains query_lower date_term

/-- Auto-classification of a query (query_engine.py lines 313-322): the
triggers are tested in the order author, file, time, with semantic as the
fallback, on the lower-cased query. -/
def autoClassify (query : String) : String :=
  let query_lower := pyLower query
  if authorTrigger query_lower then "author"
  else if fileTrigger query_lower then "file"
  else if timeTrigger query_lower then "time_range"
  else "semantic"

/-- The combined-mode deduplication loop (query_engine.py lines 356-364): walk
the concatenated results keeping a seen set; a result is kept only when its
hash is non-empty and not yet seen. -/
def dedupSeen : List QRes → List String → List QRes
  | [], _ => []
  | r :: rest, seen =>
    let h := r.hashKey
    if h ≠ "" && !(seen.contains h) then r :: dedupSeen rest (h :: seen)
    else dedupSeen rest seen

/-- The fixed suggestion strings attached when a non-summary query yields no
results (query_engine.py lines 371-376). -/
def noResultSuggestions : List String :=
  ["Try a broader search term",
   "Use specific keywords from commit messages",
   "Search by author name or file extension",
   "Use \"summary\" to get repository overview"]

/-- The response dictionary built by process_query.  Keys that a given path
never sets are carried at their default value: error and summary as none,
suggestions as the empty list.  The wall-clock timestamp field is
presentational and omitted. -/
structure QueryResponse where
  query : String
  repo_id : String
  search_type : String
  results : List QRes
  summary : Option RepoSummary
  suggestions : List String
  total_results : Nat
  total_commits_available : Nat
  analysis_date : String
  repo_url : String
  error : Option String

/-- process_query (query_engine.py lines 287-395).  The engine state is
threaded explicitly: the load step and the lazy model initialization are the
only attribute writes.  freshModel stands for the externally constructed
SentenceTransformer that initialize_model would install. -/
def process_query (st : EngineState) (disk : DiskState) (freshModel : EmbModel)
    (query : String) (repo_id : String) (search_type : String := "auto") :
    EngineState × QueryResponse :=
  let loadStep :=
    if st.analysis_data.isNone then load_analysis_data disk st else (st, true)
  let st1 := loadStep.1
  if loadStep.2 = false then
    (st1,
     { query := "", repo_id := "", search_type := "", results := [],
       summary := none,
       suggestions := ["Please analyze the repository first",
                       "Check if the repository ID is correct"],
       total_results := 0, total_commits_available := 0, analysis_date := "",
       repo_url := "",
       error := some ("Repository analysis not found for ID: " ++ repo_id) })
  else
    let st2 :=
      if st1.embeddings_model.isNone then { st1 with embeddings_model := some freshModel }
      else st1
    let stype := if search_type = "auto" then autoClassify query else search_type
    let dispatched : List QRes × Option RepoSummary × String :=
      if stype = "semantic" then
        ((semantic_search st2 query 10).map QRes.sem, none, "semantic")
      else if stype = "keyword" then
        ((keyword_search st2 query 10).map QRes.kw, none, "keyword")
      else if stype = "author" then
        let author_query := pyStrip (pyReplace (pyReplace (pyLower query) "author" "") "who" "")
        ((author_search st2 author_query).map QRes.author, none, "author")
      else if stype = "file" then
        let file_query := pyStrip (pyReplace (pyReplace (pyLower query) "file" "") "modified" "")
        ((file_search st2 file_query).map QRes.file, none, "file")
      else if stype = "summary" then
        ([], get_repository_summary st2, "summary")
      else
        let semantic_results := (semantic_search st2 query 5).map QRes.sem
        let keyword_results := (keyword_search st2 query 5).map QRes.kw
        let all_results := semantic_results ++ keyword_results
        ((dedupSeen all_results []).take 10, none, "combined")
    let resList := dispatched.1
    let summaryOpt := dispatched.2.1
    let finalType := dispatched.2.2
    let suggestions :=
      if resList.isEmpty && summaryOpt.isNone then noResultSuggestions else []
    (st2,
     { query := query, repo_id := repo_id, search_type := finalType,
       results := resList, summary := summaryOpt, suggestions := suggestions,
       total_results := resList.length,
       total_commits_available := (commitsData st2).length,
       analysis_date :=
         (match st2.analysis_data with
          | some a => a.analysis_timestamp
          | none => ""),
       repo_url :=
         (match st2.analysis_data with
          | some a => a.repo_url
          | none => ""),
       error := none })

/-! ## Read-only search dispatch

The six search operations of the engine (semantic, keyword, author, file,
time-range, summary) only read the engine attributes; none of their method
bodies in query_engine.py assigns to self.  runSearch packages them in
state-passing style so that this absence of mutation is a provable statement:
each case returns the state it was given, exactly as the translated method
bodies do. -/

/-- One read-only search call on the engine, with its arguments. -/
inductive SearchOp where
  | semanticOp (query : String) (top_k : Nat)
  | keywordOp (query : String) (top_k : Nat)
  | authorOp (query : String)
  | fileOp (query : String)
  | timeRangeOp (start_date end_date : String)
  | summaryOp
deriving Repr

/-- The output of one read-only search call; one constructor per result
shape. -/
inductive SearchOutput where
  | semanticOut : List SemResult → SearchOutput
  | keywordOut : List KwResult → SearchOutput
  | authorOut : List AuthorResult → SearchOutput
  | fileOut : List FileResult → SearchOutput
  | timeRangeOut : List TrResult → SearchOutput
  | summaryOut : Option RepoSummary → SearchOutput

/-- Run one read-only search call in state-passing style.  The translated
method bodies contain no attribute assignment, so every case hands back the
incoming state. -/
def runSearch (st : EngineState) : SearchOp → EngineState × SearchOutput
  | .semanticOp q k => (st, .semanticOut (semantic_search st q k))
  | .keywordOp q k => (st, .keywordOut (keyword_search st q k))
  | .authorOp q => (st, .authorOut (author_search st q))
  | .fileOp q => (st, .fileOut (file_search st q))
  | .timeRangeOp s e => (st, .timeRangeOut (time_range_search st s e))
  | .summaryOp => (st, .summaryOut (get_repository_summary st))

/-! ## Definitions transcribed from the specification

These two definitions follow the words of spec.md, not the source; they exist
only to be compared with the source-derived definitions above. -/

/-- Modelled from the spec: KeywordSearch as section 4.2 words it, identical
to keyword_search except that query tokens of length at most three are
discarded before scoring. -/
def keyword_search_spec (st : EngineState) (query : String) (top_k : Nat := 10) :
    List KwResult :=
  if (commitsData st).isEmpty then []
  else
    let query_keywords := (pySplitWs (pyLower query)).filter fun t => 3 < t.length
    let results := (commitsData st).filterMap fun c =>
      let score := kwScore query_keywords (commitText c)
      if score > 0 then some (kwResultOf c score) else none
    (List.insertionSort (fun a b : KwResult => b.keyword_score ≤ a.keyword_score) results).take top_k

/-- Modelled from the spec: deduplication by commit id keeping the first
occurrence of each id, as section 4.3 words the Combined mode, with no
condition on the id being non-empty. -/
def dedupFirstSpec : List QRes → List String → List QRes
  | [], _ => []
  | r :: rest, seen =>
    if seen.contains r.hashKey then dedupFirstSpec rest seen
    else r :: dedupFirstSpec rest (r.hashKey :: seen)

/-! ## Concrete instances used by the closed theorems -/

/-- The engine state right after construction (query_engine.py lines 29-33). -/
def initialState : EngineState :=
  { embeddings_model := none, embeddings_index := none, commit_metadata := [],
    analysis_data := some { repo_id := "", repo_url := "", analysis_timestamp := "",
                            status := "", structure_info := "", insights := "",
                            commits_data := [] } }

/-- The truly empty engine state: nothing loaded at all. -/
def emptyState : EngineState :=
  { embeddings_model := none, embeddings_index := none, commit_metadata := [],
    analysis_data := none }

/-- A trivial stand-in for the externally constructed sentence-transformer. -/
def trivialModel : EmbModel := { encode := fun _ => [] }

/-- A disk state with no artifact present. -/
def emptyDisk : DiskState :=
  { analysis_file := .absent, index_file := .absent, metadata_file := .absent }

/-- Build an engine state holding the given commits, with no embedding model
and no vector index. -/
def stateOfCommits (cs : List Commit) : EngineState :=
  { embeddings_model := none, embeddings_index := none, commit_metadata := [],
    analysis_data := some { repo_id := "repo", repo_url := "url",
                            analysis_timestamp := "ts", status := "completed",
                            structure_info := "", insights := "",
                            commits_data := cs } }

/-- A commit with message fix bug in parser and no file changes (spec section
8, keyword scoring example). -/
def commitFixBug : Commit :=
  { hash := "c1", author := "Alice", author_email := "alice@example.com",
    date := "2024-03-15T10:00:00", message := "fix bug in parser",
    insertions := 3, deletions := 1, files_modified := 0, file_changes := [],
    embedding := none }

/-- A commit with message update readme and no file changes (spec section 8,
keyword scoring example). -/
def commitReadme : Commit :=
  { hash := "c2", author := "Bob", author_email := "bob@example.com",
    date := "2024-03-16T11:00:00", message := "update readme",
    insertions := 1, deletions := 0, files_modified := 0, file_changes := [],
    embedding := none }

/-- The two-commit store of the keyword scoring example. -/
def stC3 : EngineState := stateOfCommits [commitFixBug, commitReadme]

/-- A one-commit store whose message is the single length-3 word bug. -/
def commitBugOnly : Commit :=
  { hash := "k1", author := "Carol", author_email := "carol@example.com",
    date := "2024-01-01T00:00:00", message := "bug", insertions := 0,
    deletions := 0, files_modified := 0, file_changes := [], embedding := none }

/-- The store exercising a length-3 query token. -/
def stC2 : EngineState := stateOfCommits [commitBugOnly]

/-- A file change touching the given path with neutral diff stats. -/
def fcOf (path : String) : FileChange :=
  { filename := path, old_path := path, new_path := path,
    change_type := "MODIFIED", added_lines := 1, deleted_lines := 0 }

/-- A commit that modified five files, for the file-truncation claim. -/
def commitFiveFiles : Commit :=
  { hash := "f1", author := "Dave", author_email := "dave@example.com",
    date := "2024-02-02T00:00:00", message := "touch alpha",
    insertions := 5, deletions := 0, files_modified := 5,
    file_changes := [fcOf "a.py", fcOf "b.py", fcOf "c.py", fcOf "d.py", fcOf "e.py"],
    embedding := none }

/-- The store exercising file-list truncation. -/
def stC10 : EngineState := stateOfCommits [commitFiveFiles]

/-- The boundary commit of the time-range example (spec section 8). -/
def commitBoundary : Commit :=
  { hash := "b1", author := "Erin", author_email := "erin@example.com",
    date := "2024-03-15T10:00:00", message := "boundary work",
    insertions := 2, deletions := 2, files_modified := 1,
    file_changes := [fcOf "core.rs"], embedding := none }

/-- The one-commit store of the time-range boundary example. -/
def stC8 : EngineState := stateOfCommits [commitBoundary]

/-- A commit dated inside 2023 whose text matches neither of the tokens of the
query during 2023. -/
def commit2023 : Commit :=
  { hash := "t1", author := "Frank", author_email := "frank@example.com",
    date := "2023-05-01T00:00:00", message := "hello world",
    insertions := 1, deletions := 1, files_modified := 0, file_changes := [],
    embedding := none }

/-- A loaded store for the time-range routing claim, with an embedding model
present so that process_query does not install one. -/
def stC1 : EngineState :=
  { embeddings_model := some trivialModel, embeddings_index := none,
    commit_metadata := [],
    analysis_data := some { repo_id := "repo", repo_url := "url",
                            analysis_timestamp := "ts", status := "completed",
                            structure_info := "", insights := "",
                            commits_data := [commit2023] } }

/-- A loaded store for the combined-mode claim: the same commits as the
keyword scoring example, an embedding model present, no vector index. -/
def stC5 : EngineState :=
  { embeddings_model := some trivialModel, embeddings_index := none,
    commit_metadata := [],
    analysis_data := some { repo_id := "repo", repo_url := "url",
                            analysis_timestamp := "ts", status := "completed",
                            structure_info := "", insights := "",
                            commits_data := [commitFixBug, commitReadme] } }

/-- A disk state whose analysis JSON is present but whose index and metadata
artifacts are both missing. -/
def diskAnalysisOnly : DiskState :=
  { analysis_file := .present { repo_id := "repo", repo_url := "url",
                                analysis_timestamp := "ts", status := "completed",
                                structure_info := "", insights := "",
                                commits_data := [commitFixBug] },
    index_file := .absent, metadata_file := .absent }

/-! ## Helper lemmas -/

theorem listLeChar_total (a b : List Char) :
    listLeChar a b = true ∨ listLeChar b a = true := by
  induction a generalizing b with
  | nil => left; rfl
  | cons x xs ih =>
    cases b with
    | nil => right; rfl
    | cons y ys =>
      rcases Nat.lt_trichotomy x.toNat y.toNat with hlt | heq | hgt
      · left; simp [listLeChar, hlt]
      · rcases ih ys with h | h
        · left; simp [listLeChar, heq, h]
        · right; simp [listLeChar, heq.symm, h]
      · right; simp [listLeChar, hgt]

theorem listLeChar_trans (a b c : List Char)
    (hab : listLeChar a b = true) (hbc : listLeChar b c = true) :
    listLeChar a c = true := by
  induction a generalizing b c with
  | nil => rfl
  | cons x xs ih =>
    cases b with
    | nil => simp [listLeChar] at hab
    | cons y ys =>
      cases c with
      | nil => simp [listLeChar] at hbc
      | cons z zs =>
        simp only [listLeChar] at hab hbc ⊢
        by_cases hxy : x.toNat < y.toNat
        · by_cases hyz : y.toNat < z.toNat
          · simp [Nat.lt_trans hxy hyz]
          · by_cases hzy : z.toNat < y.toNat
            · simp [hyz, hzy] at hbc
            · have hyz2 : y.toNat = z.toNat := by omega
              simp [hyz2 ▸ hxy]
        · by_cases hyx : y.toNat < x.toNat
          · simp [hxy, hyx] at hab
          · have hxy2 : x.toNat = y.toNat := by omega
            rw [if_neg hxy, if_neg hyx] at hab
            by_cases hyz : y.toNat < z.toNat
            · simp [hxy2 ▸ hyz]
            · by_cases hzy : z.toNat < y.toNat
              · simp [hyz, hzy] at hbc
              · rw [if_neg hyz, if_neg hzy] at hbc
                have hxz : ¬ x.toNat < z.toNat := by omega
                have hzx : ¬ z.toNat < x.toNat := by omega
                rw [if_neg hxz, if_neg hzx]
                exact ih ys zs hab hbc

theorem pyStrLe_total (a b : String) : pyStrLe a b = true ∨ pyStrLe b a = true :=
  listLeChar_total a.data b.data

theorem pyStrLe_trans {a b c : String}
    (hab : pyStrLe a b = true) (hbc : pyStrLe b c = true) : pyStrLe a c = true :=
  listLeChar_trans a.data b.data c.data hab hbc

theorem pairwise_insertionSort_of {α : Type} (r : α → α → Prop) [DecidableRel r]
    (total : ∀ a b, r a b ∨ r b a) (htrans : ∀ a b c, r a b → r b c → r a c)
    (l : List α) : (List.insertionSort r l).Pairwise r := by
  haveI : IsTotal α r := ⟨total⟩
  haveI : IsTrans α r := ⟨htrans⟩
  exact List.sorted_insertionSort r l

theorem one_le_countGo_of_contains (pat : List Char) (hpat : pat ≠ []) :
    ∀ s : List Char, containsL s pat = true → 1 ≤ countGo pat s 0 := by
  intro s
  induction s with
  | nil =>
    intro h
    cases pat with
    | nil => exact absurd rfl hpat
    | cons x xs => simp [containsL, startsWithL] at h
  | cons c rest ih =>
    intro h
    by_cases hsw : startsWithL pat (c :: rest) = true
    · simp [countGo, hsw]
    · rw [containsL] at h
      simp only [hsw, Bool.false_or] at h
      simp only [countGo, hsw, if_false]
      exact ih h

theorem one_le_pyCount_of_contains {s pat : String}
    (h : pyContains s pat = true) : 1 ≤ pyCount s pat := by
  unfold pyContains at h
  unfold pyCount countL
  by_cases hp : pat.data.isEmpty
  · simp [hp]
  · have hpat : pat.data ≠ [] := by
      cases hd : pat.data with
      | nil => rw [hd] at hp; simp at hp
      | cons x xs => simp
    simp only [hp, if_false]
    exact one_le_countGo_of_contains pat.data hpat s.data h

theorem mem_keyword_search {st : EngineState} {q : String} {k : Nat} {r : KwResult}
    (h : r ∈ keyword_search st q k) :
    ∃ c, c ∈ commitsData st ∧
      0 < kwScore (pySplitWs (pyLower q)) (commitText c) ∧
      r = kwResultOf c (kwScore (pySplitWs (pyLower q)) (commitText c)) := by
  rw [keyword_search] at h
  by_cases he : (commitsData st).isEmpty
  · simp [he] at h
  · simp only [he, Bool.false_eq_true, if_false] at h
    have h1 := List.mem_of_mem_take h
    have h2 := (List.mem_insertionSort _).mp h1
    rcases List.mem_filterMap.mp h2 with ⟨c, hc, heq⟩
    by_cases hs : kwScore (pySplitWs (pyLower q)) (commitText c) > 0
    · rw [if_pos hs] at heq
      exact ⟨c, hc, hs, (Option.some_injective _ heq).symm⟩
    · rw [if_neg hs] at heq
      exact absurd heq (Option.noConfusion)

theorem mem_semantic_search {st : EngineState} {q : String} {k : Nat} {r : SemResult}
    (h : r ∈ semantic_search st q k) :
    ∃ md, md ∈ st.commit_metadata ∧ r.hash = md.hash := by
  rw [semantic_search] at h
  cases hm : st.embeddings_model with
  | none => rw [hm] at h; simp at h
  | some m =>
    cases hi : st.embeddings_index with
    | none => rw [hm, hi] at h; simp at h
    | some idx =>
      rw [hm, hi] at h
      simp only at h
      rcases List.mem_filterMap.mp h with ⟨p, _, heq⟩
      by_cases hb : 0 ≤ p.2.2 ∧ p.2.2.toNat < st.commit_metadata.length
      · rw [if_pos hb] at heq
        cases hmd : st.commit_metadata[p.2.2.toNat]? with
        | none => rw [hmd] at heq; exact absurd heq (Option.noConfusion)
        | some md =>
          rw [hmd] at heq
          rcases List.getElem?_eq_some.mp hmd with ⟨hlt, hget⟩
          refine ⟨md, hget ▸ List.getElem_mem hlt, ?_⟩
          have := Option.some_injective _ heq
          rw [← this]
      · rw [if_neg hb] at heq
        exact absurd heq (Option.noConfusion)

theorem dedupSeen_eq_dedupFirstSpec :
    ∀ (l : List QRes) (seen : List String),
      (∀ r ∈ l, r.hashKey ≠ "") → dedupSeen l seen = dedupFirstSpec l seen := by
  intro l
  induction l with
  | nil => intro seen _; rfl
  | cons r rest ih =>
    intro seen hne
    have hr : r.hashKey ≠ "" := hne r (List.mem_cons_self r rest)
    have hrest : ∀ x ∈ rest, x.hashKey ≠ "" := fun x hx => hne x (List.mem_cons_of_mem r hx)
    rw [dedupSeen, dedupFirstSpec]
    by_cases hseen : seen.contains r.hashKey = true
    · have hmem : r.hashKey ∈ seen := by simpa using hseen
      simp [hr, hseen, hmem, ih seen hrest]
    · have hmem : r.hashKey ∉ seen := by simpa using hseen
      simp [hr, hseen, hmem, ih seen hrest, ih (r.hashKey :: seen) hrest]

/-! ## Claim theorems -/

/-- C9: once a store and index are loaded, every search operation (semantic,
keyword, author, file, time-range, summary) leaves the loaded engine state
unchanged: the state returned alongside the output equals the incoming state,
for every query. -/
theorem search_operations_preserve_state (st : EngineState) (op : SearchOp) :
    (runSearch st op).1 = st := by
  cases op <;> rfl

/-- C3: on the store whose two commits have messages fix bug in parser and
update readme and no matching file names, keyword search for bug with top_k =
10 returns exactly the first commit, its score is 1 (hence at least 1), and
the second commit is excluded. -/
theorem keyword_scoring_example :
    (keyword_search stC3 "bug" 10).map (fun r => (r.hash, r.keyword_score)) = [("c1", 1)]
    ∧ (keyword_search stC3 "bug" 10).all (fun r => 1 ≤ r.keyword_score) = true := by
  exact ⟨by decide, by decide⟩

/-- C1: evaluating the router at the failing input.  The query during 2023 is
classified time_range by auto-detection, yet process_query has no dispatch
branch for that classification: the call falls into the default combined
branch, reports search_type combined, and returns no results, while the
time-range strategy over the same loaded store would return the 2023 commit.
This contradicts the claim that the router executes the time-range search
strategy for such queries. -/
theorem time_range_classification_falls_to_combined :
    autoClassify "during 2023" = "time_range"
    ∧ (process_query stC1 emptyDisk trivialModel "during 2023" "repo" "auto").2.search_type = "combined"
    ∧ (process_query stC1 emptyDisk trivialModel "during 2023" "repo" "auto").2.results = []
    ∧ (time_range_search stC1 "2023-01-01" "2023-12-31").map (fun r => r.hash) = ["t1"] := by
  exact ⟨by decide, by decide, by decide, by decide⟩

/-- C4 counterexample: a persisted unit whose vector index and metadata
artifacts are both missing still loads successfully, contradicting the claim
that any missing artifact fails the load. -/
theorem load_with_missing_artifacts_succeeds :
    (load_analysis_data diskAnalysisOnly emptyState).2 = true
    ∧ diskAnalysisOnly.index_file.isAbsent = true
    ∧ diskAnalysisOnly.metadata_file.isAbsent = true :=
  ⟨rfl, rfl, rfl⟩

/-- C4 amended: loading fails when the analysis JSON is missing or
unreadable, and when a present index or metadata artifact fails to read (the
raise reaches the shared except clause); but a missing index or metadata
artifact does not fail the load — the engine only warns and leaves the
corresponding attribute untouched — and no mutual-consistency check among the
artifacts is performed.  Success is exactly: analysis JSON present and
readable, and neither remaining artifact present-but-unreadable. -/
theorem load_success_characterized (disk : DiskState) (st : EngineState) :
    ((load_analysis_data disk st).2 = true ↔
      (disk.analysis_file.isPresent = true
        ∧ disk.index_file.isCorrupt = false
        ∧ disk.metadata_file.isCorrupt = false))
    ∧ (disk.index_file.isAbsent = true →
        (load_analysis_data disk st).1.embeddings_index = st.embeddings_index)
    ∧ (disk.metadata_file.isAbsent = true →
        (load_analysis_data disk st).1.commit_metadata = st.commit_metadata) := by
  cases ha : disk.analysis_file <;> cases hi : disk.index_file <;>
    cases hm : disk.metadata_file <;>
    simp [load_analysis_data, ha, hi, hm,
      Artifact.isPresent, Artifact.isCorrupt, Artifact.isAbsent]

/-- Witness for the amended C4 statement at a concrete disk state. -/
theorem load_success_characterized_witness :
    (load_analysis_data diskAnalysisOnly emptyState).2 = true
    ∧ (load_analysis_data diskAnalysisOnly emptyState).1.embeddings_index
        = emptyState.embeddings_index
    ∧ (load_analysis_data diskAnalysisOnly emptyState).1.commit_metadata
        = emptyState.commit_metadata :=
  ⟨(load_success_characterized diskAnalysisOnly emptyState).1.mpr ⟨rfl, rfl, rfl⟩,
   (load_success_characterized diskAnalysisOnly emptyState).2.1 rfl,
   (load_success_characterized diskAnalysisOnly emptyState).2.2 rfl⟩

/-- C2 counterexample: on a store whose single commit has message bug, the
query bug, a single token of length 3, scores the commit 1 and returns it,
whereas the claimed discard of tokens of length at most 3 would leave no
scoring token and an empty result (the spec-transcribed variant indeed
returns the empty list). -/
theorem short_token_contributes_to_score :
    keyword_search_spec stC2 "bug" 10 = []
    ∧ (keyword_search stC2 "bug" 10).map (fun r => (r.hash, r.keyword_score)) = [("k1", 1)] :=
  ⟨by decide, by decide⟩

/-- C2 amended: keyword search tokenizes the query on whitespace and
lower-cases the tokens but discards none of them: on a single-commit store, a
single-token query whose token occurs in the commit text returns that commit
scored by the occurrence count, regardless of the token length. -/
theorem keyword_search_keeps_all_tokens (st : EngineState) (q t : String) (c : Commit)
    (hstore : commitsData st = [c])
    (htok : pySplitWs (pyLower q) = [t])
    (hin : pyContains (commitText c) t = true) :
    keyword_search st q 10 = [kwResultOf c (pyCount (commitText c) t)]
    ∧ 1 ≤ pyCount (commitText c) t := by
  have hcount := one_le_pyCount_of_contains hin
  have hscore : kwScore [t] (commitText c) = pyCount (commitText c) t := by
    simp [kwScore, hin]
  refine ⟨?_, hcount⟩
  rw [keyword_search, hstore, htok]
  have hpos : pyCount (commitText c) t > 0 := hcount
  simp only [List.isEmpty_cons, Bool.false_eq_true, if_false, List.filterMap_cons,
    List.filterMap_nil, hscore]
  rw [if_pos hpos]
  rfl

/-- Witness for the amended C2 statement: the length-3 token bug scores the
bug commit. -/
theorem keyword_search_keeps_all_tokens_witness :
    "bug".length ≤ 3
    ∧ keyword_search stC2 "bug" 10
        = [kwResultOf commitBugOnly (pyCount (commitText commitBugOnly) "bug")]
    ∧ 1 ≤ pyCount (commitText commitBugOnly) "bug" :=
  ⟨by decide,
   (keyword_search_keeps_all_tokens stC2 "bug" "bug" commitBugOnly rfl (by decide) (by decide)).1,
   (keyword_search_keeps_all_tokens stC2 "bug" "bug" commitBugOnly rfl (by decide) (by decide)).2⟩

/-- C6: with no embedding model or no vector index loaded, semantic search
returns the empty result list (its very first guard), and a store with zero
embedded records never gets an index built for it, so this degraded state is
exactly what such a store produces. -/
theorem semantic_search_degrades_to_empty :
    (∀ (st : EngineState) (q : String) (k : Nat),
      st.embeddings_model = none ∨ st.embeddings_index = none →
      semantic_search st q k = [])
    ∧ (∀ (buildIndex : List (List Rat) → VecIndex) (cd : List Commit),
      (∀ c ∈ cd, c.embedding = none ∨ c.embedding = some []) →
      create_embeddings_index buildIndex cd = none) := by
  constructor
  · intro st q k h
    obtain ⟨mo, io, md, ad⟩ := st
    cases mo with
    | none => cases io <;> rfl
    | some m =>
      cases io with
      | none => rfl
      | some idx => rcases h with h | h <;> simp at h
  · intro buildIndex cd h
    have hrec : embeddedRecords cd = [] := by
      rw [embeddedRecords]
      apply List.filterMap_eq_nil_iff.mpr
      intro c hc
      rcases h c hc with h1 | h1 <;> simp [h1]
    simp [create_embeddings_index, hrec]

/-- Witness for C6: a fresh engine answers semantic queries with the empty
list, and index construction over an unembedded store is skipped. -/
theorem semantic_search_degrades_to_empty_witness :
    semantic_search emptyState "refactor parser" 10 = []
    ∧ create_embeddings_index (fun _ => { ntotal := 0, searchRow := fun _ _ => [] })
        [commitFixBug] = none :=
  ⟨semantic_search_degrades_to_empty.1 emptyState "refactor parser" 10 (Or.inl rfl),
   semantic_search_degrades_to_empty.2 _ [commitFixBug] (by decide)⟩

/-- C10: every result of keyword search carries exactly the first three
entries of the matched commit's file_changes sequence in original order, so
its file list never exceeds three entries even when the commit modified more
files. -/
theorem keyword_results_truncate_file_changes (st : EngineState) (q : String) (k : Nat)
    (r : KwResult) (h : r ∈ keyword_search st q k) :
    (∃ c, c ∈ commitsData st ∧ r.file_changes = c.file_changes.take 3)
    ∧ r.file_changes.length ≤ 3 := by
  rcases mem_keyword_search h with ⟨c, hc, _, heq⟩
  have hfc : r.file_changes = c.file_changes.take 3 := by rw [heq]; rfl
  refine ⟨⟨c, hc, hfc⟩, ?_⟩
  rw [hfc]
  simp [List.length_take]

/-- Witness for C10 at a commit with five file changes: the result carries
the first three. -/
theorem keyword_results_truncate_file_changes_witness :
    (∃ c, c ∈ commitsData stC10
      ∧ (kwResultOf commitFiveFiles 1).file_changes = c.file_changes.take 3)
    ∧ (kwResultOf commitFiveFiles 1).file_changes.length ≤ 3 :=
  keyword_results_truncate_file_changes stC10 "alpha" 10 (kwResultOf commitFiveFiles 1)
    (by decide)

/-- C8: time-range search includes a commit exactly when start <= timestamp
<= end under Python string (lexicographic) comparison, both bounds inclusive,
and the returned commits are ordered by timestamp descending; in particular
the boundary commit dated 2024-03-15T10:00:00 is included for the bounds
(2024-03-15, 2024-03-15T23:59:59) and excluded for (2024-03-16,
2024-03-20). -/
theorem time_range_search_bounds_and_order (st : EngineState) (s e : String) :
    (∀ c, c ∈ commitsData st →
      (trResultOf c ∈ time_range_search st s e
        ↔ (pyStrLe s c.date && pyStrLe c.date e) = true))
    ∧ (time_range_search st s e).Pairwise (fun a b => pyStrLe b.date a.date = true)
    ∧ trResultOf commitBoundary ∈ time_range_search stC8 "2024-03-15" "2024-03-15T23:59:59"
    ∧ trResultOf commitBoundary ∉ time_range_search stC8 "2024-03-16" "2024-03-20" := by
  refine ⟨?_, ?_, by decide, by decide⟩
  · intro c hc
    constructor
    · intro hmem
      rw [time_range_search] at hmem
      by_cases he : (commitsData st).isEmpty = true
      · simp [he] at hmem
      · simp only [he, Bool.false_eq_true, if_false] at hmem
        have h2 := (List.mem_insertionSort _).mp hmem
        rcases List.mem_filterMap.mp h2 with ⟨c2, _, heq⟩
        by_cases hr : (pyStrLe s c2.date && pyStrLe c2.date e) = true
        · rw [if_pos hr] at heq
          have hsame : trResultOf c2 = trResultOf c := Option.some_injective _ heq
          have hdate : c2.date = c.date := congrArg TrResult.date hsame
          rw [← hdate]
          exact hr
        · rw [if_neg hr] at heq
          exact absurd heq Option.noConfusion
    · intro hr
      rw [time_range_search]
      have hne : ¬ (commitsData st).isEmpty = true := by
        cases hcd : commitsData st with
        | nil => rw [hcd] at hc; simp at hc
        | cons x xs => simp
      simp only [hne, Bool.false_eq_true, if_false]
      exact (List.mem_insertionSort _).mpr
        (List.mem_filterMap.mpr ⟨c, hc, by rw [if_pos hr]⟩)
  · rw [time_range_search]
    by_cases he : (commitsData st).isEmpty = true
    · simp [he]
    · simp only [he, Bool.false_eq_true, if_false]
      exact pairwise_insertionSort_of
        (fun a b : TrResult => pyStrLe b.date a.date = true)
        (fun a b => pyStrLe_total b.date a.date)
        (fun a b c hab hbc => pyStrLe_trans hbc hab) _

/-- Witness for C8: the membership equivalence instantiated at the boundary
commit and the first bound pair. -/
theorem time_range_search_bounds_and_order_witness :
    trResultOf commitBoundary ∈ time_range_search stC8 "2024-03-15" "2024-03-15T23:59:59"
      ↔ (pyStrLe "2024-03-15" commitBoundary.date
          && pyStrLe commitBoundary.date "2024-03-15T23:59:59") = true :=
  (time_range_search_bounds_and_order stC8 "2024-03-15" "2024-03-15T23:59:59").1
    commitBoundary (by decide)

/-- C7: auto-classification tests its triggers in the fixed order author,
file, time, semantic, so any query whose lower-cased text contains author or
who classifies as author regardless of any file trigger it also contains; in
particular, on any loaded engine the query who modified config.py dispatches
to author search with the stripped fragment modified config.py. -/
theorem author_trigger_precedes_file_trigger (st : EngineState) (disk : DiskState)
    (fm : EmbModel) (rid : String)
    (hdata : st.analysis_data.isSome = true)
    (hmodel : st.embeddings_model.isSome = true) :
    (∀ q : String, authorTrigger (pyLower q) = true → autoClassify q = "author")
    ∧ (process_query st disk fm "who modified config.py" rid "auto").2.search_type = "author"
    ∧ (process_query st disk fm "who modified config.py" rid "auto").2.results
        = (author_search st "modified config.py").map QRes.author := by
  have hcls : autoClassify "who modified config.py" = "author" := by decide
  have hq : pyStrip (pyReplace (pyReplace (pyLower "who modified config.py") "author" "") "who" "")
      = "modified config.py" := by decide
  refine ⟨?_, ?_, ?_⟩
  · intro q htrig
    rw [autoClassify]
    simp only [htrig, if_true]
  · obtain ⟨mo, io, md, ad⟩ := st
    cases mo with
    | none => simp at hmodel
    | some m =>
      cases ad with
      | none => simp at hdata
      | some a => simp [process_query, hcls, hq]
  · obtain ⟨mo, io, md, ad⟩ := st
    cases mo with
    | none => simp at hmodel
    | some m =>
      cases ad with
      | none => simp at hdata
      | some a => simp [process_query, hcls, hq]

/-- Witness for C7 at a concrete loaded engine. -/
theorem author_trigger_precedes_file_trigger_witness :
    autoClassify "who modified config.py" = "author"
    ∧ (process_query stC5 emptyDisk trivialModel "who modified config.py" "repo" "auto").2.search_type
        = "author"
    ∧ (process_query stC5 emptyDisk trivialModel "who modified config.py" "repo" "auto").2.results
        = (author_search stC5 "modified config.py").map QRes.author :=
  ⟨(author_trigger_precedes_file_trigger stC5 emptyDisk trivialModel "repo" rfl rfl).1
      "who modified config.py" (by decide),
   (author_trigger_precedes_file_trigger stC5 emptyDisk trivialModel "repo" rfl rfl).2.1,
   (author_trigger_precedes_file_trigger stC5 emptyDisk trivialModel "repo" rfl rfl).2.2⟩

/-- C5: in Combined mode on a loaded engine whose store and metadata carry
non-empty commit ids, the returned result list is the semantic top-5 followed
by the keyword top-5, deduplicated by commit id keeping the first occurrence
of each id (semantic results thereby take priority over keyword results with
the same id), truncated to at most 10 entries; the response reports mode
combined. -/
theorem combined_mode_merges_and_dedups (st : EngineState) (disk : DiskState)
    (fm : EmbModel) (q rid : String)
    (hdata : st.analysis_data.isSome = true)
    (hmodel : st.embeddings_model.isSome = true)
    (hmeta : ∀ md ∈ st.commit_metadata, md.hash ≠ "")
    (hcomm : ∀ c ∈ commitsData st, c.hash ≠ "") :
    (process_query st disk fm q rid "combined").2.results
      = (dedupFirstSpec (((semantic_search st q 5).map QRes.sem)
          ++ ((keyword_search st q 5).map QRes.kw)) []).take 10
    ∧ (process_query st disk fm q rid "combined").2.search_type = "combined" := by
  have hall : ∀ r ∈ ((semantic_search st q 5).map QRes.sem)
      ++ ((keyword_search st q 5).map QRes.kw), r.hashKey ≠ "" := by
    intro r hr
    rcases List.mem_append.mp hr with hsem | hkw
    · rcases List.mem_map.mp hsem with ⟨sr, hsr, hre⟩
      rcases mem_semantic_search hsr with ⟨mdx, hmdx, hhash⟩
      rw [← hre]
      show sr.hash ≠ ""
      rw [hhash]
      exact hmeta mdx hmdx
    · rcases List.mem_map.mp hkw with ⟨kr, hkr, hre⟩
      rcases mem_keyword_search hkr with ⟨c, hc, _, hkre⟩
      rw [← hre]
      show kr.hash ≠ ""
      rw [hkre]
      exact hcomm c hc
  have hdedup := dedupSeen_eq_dedupFirstSpec _ [] hall
  obtain ⟨mo, io, md, ad⟩ := st
  cases mo with
  | none => simp at hmodel
  | some m =>
    cases ad with
    | none => simp at hdata
    | some a =>
      constructor
      · simp only [process_query]
        simp only [Option.isNone_some, Bool.false_eq_true, if_false]
        rw [← hdedup]
        simp
      · simp [process_query]

/-- Witness for C5 at a concrete loaded engine and the query bug. -/
theorem combined_mode_merges_and_dedups_witness :
    (process_query stC5 emptyDisk trivialModel "bug" "repo" "combined").2.results
      = (dedupFirstSpec (((semantic_search stC5 "bug" 5).map QRes.sem)
          ++ ((keyword_search stC5 "bug" 5).map QRes.kw)) []).take 10
    ∧ (process_query stC5 emptyDisk trivialModel "bug" "repo" "combined").2.search_type
        = "combined" :=
  combined_mode_merges_and_dedups stC5 emptyDisk trivialModel "bug" "repo"
    rfl rfl (by decide) (by decide)

end CodebaseTimeMachine
